import Mathlib

/-!
Verification of the metrics/error computation engine of the
posthog-analytics-to-slack scripts.

The development shallowly embeds the three Python scripts:

* `DailyReporter` — `daily_slack_reporter.py`: the funnel-conversion
  calculator (`get_real_funnel_conversion`, including the semantics of the
  HogQL query it sends), the attribution reconciler inside
  `generate_daily_report`, and the delta comparator `fmt_change`.
* `ErrorReporter` — `error_slack_reporter.py`: the error-rule table
  `ERROR_DEFINITIONS`, per-rule row fetching `get_errors_for_event`,
  property projection `format_error_properties`, and the section/total
  accumulation of `check_errors`.
* `Digest` — `posthog_to_slack.py`: the metric extractors
  `extract_funnel_conversion`, `extract_trend_value`, `extract_metric`.

Conventions used throughout:

* Python numbers are modelled exactly: ints as `Int`/`Nat`, floats as `ℚ`
  (float rounding is modelled as exact rational rounding; ties at `.05`,
  which are what distinguishes the two, do not occur in the claims below).
* Python dicts are modelled as association lists in insertion order, which
  is the iteration order Python guarantees.
* Fallible Python code (exceptions) is modelled with `Except Unit`.
* The HogQL queries the scripts send are part of the source (they are
  string literals in the Python files); their backend evaluation is
  embedded as Lean functions over lists of event rows, translated clause
  by clause from the query text.
-/

namespace DailyReporter

/-- One raw analytics event row as selected by the queries of
`daily_slack_reporter.py`: event name, actor (`distinct_id`),
`properties.$os`, and timestamp (opaque instants, modelled as `Nat`,
ordered). -/
structure EventRow where
  event : String
  distinct_id : String
  os : String
  timestamp : Nat
deriving DecidableEq, Repr

/-- Per-platform funnel result as built by `get_real_funnel_conversion`
(line 135/145): `{"started": ..., "completed": ..., "rate": ...}`. -/
structure FunnelResult where
  started : Nat
  completed : Nat
  rate : ℚ
deriving DecidableEq, Repr

/-- The all-zero entry `{"started": 0, "completed": 0, "rate": 0}` used to
initialise the funnel dict (lines 135-136). -/
def zeroResult : FunnelResult := ⟨0, 0, 0⟩

/-- Python `round(x, 1)`: round to one decimal place, modelled on exact
rationals (half rounds up; Python rounds the nearest binary float, which
agrees away from exact `.05` ties). -/
def round1 (q : ℚ) : ℚ := (round (q * 10) : ℤ) / 10

/-- Line 144-145: `rate = round((completed / started) * 100, 1) if
started > 0 else 0` packaged with the two counts. -/
def mkFunnelResult (started completed : Nat) : FunnelResult :=
  ⟨started, completed,
    if started > 0 then round1 ((completed : ℚ) / (started : ℚ) * 100) else 0⟩

/-- Line 135-136: the initial funnel dict
`{"iOS": {...zeros...}, "Android": {...zeros...}}`, as an association
list in insertion order. -/
def funnelInit : List (String × FunnelResult) :=
  [("iOS", zeroResult), ("Android", zeroResult)]

/-- Python assignment `funnel[os_name] = v` for a key already present in
the dict: the value is replaced in place, insertion order unchanged. -/
def setExisting (m : List (String × FunnelResult)) (k : String)
    (v : FunnelResult) : List (String × FunnelResult) :=
  m.map fun p => if p.1 == k then (k, v) else p

/-- The body of the loop of lines 139-145: a backend result row
`(os_name, started, completed)` updates the funnel dict only when
`os_name in funnel`. -/
def processStep (m : List (String × FunnelResult)) (r : String × Nat × Nat) :
    List (String × FunnelResult) :=
  if m.any (·.1 == r.1) then setExisting m r.1 (mkFunnelResult r.2.1 r.2.2)
  else m

/-- Lines 138-146: iterate over the backend result rows, starting from the
all-zero iOS/Android dict. -/
def processRows (resultRows : List (String × Nat × Nat)) :
    List (String × FunnelResult) :=
  resultRows.foldl processStep funnelInit

/-- The window/event/platform filter in the query's WHERE clause
(lines 121-125): `event IN (start, end)`, `timestamp >= date_from AND
timestamp < date_to`, `$os` iOS or Android. -/
def filterRows (start_event end_event : String) (date_from date_to : Nat)
    (rows : List EventRow) : List EventRow :=
  rows.filter fun r =>
    (r.event == start_event || r.event == end_event)
      && decide (date_from ≤ r.timestamp) && decide (r.timestamp < date_to)
      && (r.os == "iOS" || r.os == "Android")

/-- The distinct `distinct_id` values appearing in a row list
(`GROUP BY distinct_id`, line 126). -/
def actorIds (rows : List EventRow) : List String :=
  (rows.map (·.distinct_id)).dedup

/-- `argMin(properties.$os, timestamp)` (line 118): the `$os` value of the
row with the smallest timestamp; on timestamp ties the first row in list
order wins (the backend leaves ties unspecified). -/
def argMinOs : List EventRow → String
  | [] => ""
  | r :: rest =>
      (rest.foldl (fun acc x => if x.timestamp < acc.timestamp then x else acc) r).os

/-- One group of the inner subquery (lines 116-127): an actor passing the
`HAVING sum(event = start_event) > 0` filter, with
`start_os = argMin($os, timestamp)` and
`completed = max(event = end_event)`. -/
structure ActorGroup where
  distinct_id : String
  start_os : String
  completed : Bool
deriving DecidableEq, Repr

/-- The group produced for one actor by the inner subquery: `none` when the
actor fails the `HAVING sum(event = start_event) > 0` filter. -/
def actorGroup (start_event end_event : String) (fr : List EventRow)
    (a : String) : Option ActorGroup :=
  let rs := fr.filter (·.distinct_id == a)
  if rs.any (·.event == start_event) then
    some ⟨a, argMinOs rs, rs.any (·.event == end_event)⟩
  else none

/-- The inner subquery of `get_real_funnel_conversion` (lines 116-128):
group the filtered rows by actor, keep actors with at least one
start-event row, record their attribution platform and whether they have
at least one end-event row. -/
def innerGroups (start_event end_event : String) (date_from date_to : Nat)
    (rows : List EventRow) : List ActorGroup :=
  let fr := filterRows start_event end_event date_from date_to rows
  (actorIds fr).filterMap (actorGroup start_event end_event fr)

/-- The outer query (lines 111-130): group the actor groups by `start_os`,
`started = count()`, `completed = countIf(completed = 1)`.  (`ORDER BY
started DESC` is dropped: the Python loop is keyed by `os_name`, so row
order cannot affect the funnel dict.) -/
def queryResults (start_event end_event : String) (date_from date_to : Nat)
    (rows : List EventRow) : List (String × Nat × Nat) :=
  let gs := innerGroups start_event end_event date_from date_to rows
  ((gs.map (·.start_os)).dedup).map fun os =>
    (os, (gs.filter (·.start_os == os)).length,
      (gs.filter (fun g => g.start_os == os && g.completed)).length)

/-- `get_real_funnel_conversion` (lines 105-147): run the query over the
event rows and fold its result rows into the fixed iOS/Android dict. -/
def get_real_funnel_conversion (start_event end_event : String)
    (date_from date_to : Nat) (rows : List EventRow) :
    List (String × FunnelResult) :=
  processRows (queryResults start_event end_event date_from date_to rows)

/-- Lines 263-265 of `generate_daily_report`:
`other_buy = total_buy - standard_buy - deeplink_buy`, floored at zero. -/
def other_buy (total_buy standard_buy deeplink_buy : ℤ) : ℤ :=
  let other := total_buy - standard_buy - deeplink_buy
  if other < 0 then 0 else other

/-- `delta_pct = ((current - previous) / previous) * 100` from
`fmt_change` (line 190). -/
def delta_pct (current previous : ℤ) : ℚ :=
  (((current : ℚ) - (previous : ℚ)) / (previous : ℚ)) * 100

/-- The branch structure of `fmt_change` (lines 187-192), returning the
trend marker; the numeric rendering appended after the marker is display
formatting and is not modelled. -/
def fmt_change_marker (current previous : ℤ) : String :=
  if previous = 0 then (if current > 0 then "🆕" else "—")
  else if delta_pct current previous > 0 then "📈"
  else if delta_pct current previous < 0 then "📉"
  else "➡️"

/-- The concrete scenario from the specification: start-event rows for
actors A, B, C and end-event rows for actors B, C, D, all on iOS, inside
the window `[0, 10)`. -/
def scenarioRows : List EventRow :=
  [⟨"fstart", "A", "iOS", 1⟩, ⟨"fstart", "B", "iOS", 2⟩, ⟨"fstart", "C", "iOS", 3⟩,
   ⟨"fend", "B", "iOS", 4⟩, ⟨"fend", "C", "iOS", 5⟩, ⟨"fend", "D", "iOS", 6⟩]

end DailyReporter

namespace ErrorReporter

/-- One entry of `ERROR_DEFINITIONS` (lines 45-196 of
`error_slack_reporter.py`): event name, display name, emoji, SQL filter
condition (kept as the literal condition text; it is interpolated
verbatim into the query and evaluated by the backend), and the property
names to display. -/
structure ErrorDef where
  event : String
  name : String
  emoji : String
  filter : Option String
  properties : List String
deriving DecidableEq, Repr

/-- The full rule table `ERROR_DEFINITIONS` (lines 45-196). -/
def ERROR_DEFINITIONS : List ErrorDef :=
  [⟨"auth_invite_code_result", "Invite Code Error", "🔑",
    some "properties.status IN (\x27invalid\x27, \x27error\x27)", ["status", "error"]⟩,
   ⟨"auth_otp_result", "OTP Error", "🔢",
    some "properties.status = \x27error\x27", ["status", "error"]⟩,
   ⟨"auth_consent_decision", "Consent Denied", "🚫",
    some "properties.decision = \x27deny\x27", ["decision"]⟩,
   ⟨"auth_logout_failed", "Logout Failed", "🚪", none, ["error"]⟩,
   ⟨"buy_provider_availability_error", "Provider Availability Error", "💳",
    none, ["provider", "error"]⟩,
   ⟨"buy_payment_state_changed", "Payment Failed", "💰",
    some "properties.state = \x27failed\x27", ["state", "error", "provider"]⟩,
   ⟨"send_validation_error", "Send Validation Error", "📤", none, ["reason"]⟩,
   ⟨"send_recipient_validation_result", "Recipient Validation Error", "👤",
    some "properties.status IN (\x27invalid\x27, \x27error\x27)", ["status", "error"]⟩,
   ⟨"send_transaction_result", "Send Transaction Error", "📤",
    some "properties.status IN (\x27error\x27, \x27cancelled\x27)", ["status", "error"]⟩,
   ⟨"sell_result", "Sell Error", "💵",
    some "properties.status = \x27error\x27", ["status", "provider", "error"]⟩,
   ⟨"swap_transfer_result", "Swap Transfer Error", "🔄",
    some "properties.status = \x27error\x27", ["status", "error"]⟩,
   ⟨"swap_execution_result", "Swap Execution Error", "🔄",
    some "properties.status = \x27error\x27", ["status", "error"]⟩,
   ⟨"asset_swap_validation_error", "Swap Validation Error", "⚠️",
    none, ["reason"]⟩,
   ⟨"transaction_cancel_result", "Transaction Cancel Error", "❌",
    some "properties.status = \x27error\x27", ["status", "error"]⟩,
   ⟨"profile_biometric_toggled", "Biometric Toggle Failed", "👆",
    some "properties.result = \x27failed\x27", ["result", "error"]⟩,
   ⟨"edit_profile_email_update_result", "Email Update Error", "📧",
    some "properties.status = \x27error\x27", ["status", "error"]⟩,
   ⟨"deeplink_intent_action", "Deeplink Error", "🔗",
    some "properties.action = \x27expired\x27 OR properties.reason = \x27invalid\x27",
    ["action", "reason"]⟩,
   ⟨"app_error_captured", "App Error", "🐛",
    some "properties.severity = \x27error\x27", ["message", "source", "severity"]⟩,
   ⟨"ui_toast_shown", "Error Toast", "🍞",
    some "properties.tone = \x27error\x27", ["toast_id", "message"]⟩]

/-- Line 198: `MAX_ERRORS_PER_TYPE = 10`. -/
def MAX_ERRORS_PER_TYPE : Nat := 10

/-- A value cell of a query result row: SQL NULL or a string.  Python
strings are modelled as lists of code points so that `len`, slicing and
concatenation are ordinary list operations. -/
abbrev Cell := Option (List Char)

/-- One error dict as built by `get_errors_for_event` (lines 274-278):
column name to cell, in column order. -/
abbrev ErrorRow := List (String × Cell)

/-- The JSON body of a successful `query_posthog` response: the
`"columns"` and `"results"` fields. -/
structure QueryResult where
  columns : List String
  results : List (List Cell)
deriving DecidableEq, Repr

/-- The backend semantics of the `ORDER BY timestamp DESC LIMIT
MAX_ERRORS_PER_TYPE` tail of the query of `get_errors_for_event`
(lines 263-264): of the rows matching the rule (already newest-first),
only the first `limit` are returned. -/
def limitResults (limit : Nat) (matching : List (List Cell)) :
    List (List Cell) :=
  matching.take limit

/-- Lines 267-280 of `get_errors_for_event`: a failed fetch
(`query_posthog` returned `None`, line 226-228) or a response with empty
`results` both yield `[]`; otherwise each result row is zipped with the
column names into a dict.  (The zip models the
`for i, col in enumerate(columns): error[col] = row[i]` loop; the
backend always returns rows as long as the column list.) -/
def rowsToErrors (result : Option QueryResult) : List ErrorRow :=
  match result with
  | none => []
  | some r =>
      if r.results.isEmpty then []
      else r.results.map fun row => r.columns.zip row

/-- `get_errors_for_event` (lines 232-280) with the network call
abstracted: `resp` maps each rule to the response `query_posthog`
produced for its query (`none` = non-2xx failure). -/
def get_errors_for_event (resp : ErrorDef → Option QueryResult)
    (d : ErrorDef) : List ErrorRow :=
  rowsToErrors (resp d)

/-- Python dict assignment `m[k] = v` on a string-keyed dict in insertion
order: replace in place when the key exists, append otherwise. -/
def dictInsert (m : List (String × ErrorDef × List ErrorRow)) (k : String)
    (v : ErrorDef × List ErrorRow) : List (String × ErrorDef × List ErrorRow) :=
  if m.any (·.1 == k) then m.map fun p => if p.1 == k then (k, v) else p
  else m ++ [(k, v)]

/-- The body of the collection loop of `check_errors` (lines 338-346): a
rule with a non-empty error list is inserted into `all_errors` under its
event name and its length is added to `total_error_count`. -/
def collectStep (resp : ErrorDef → Option QueryResult)
    (acc : List (String × ErrorDef × List ErrorRow) × Nat) (d : ErrorDef) :
    List (String × ErrorDef × List ErrorRow) × Nat :=
  let errors := get_errors_for_event resp d
  if errors.isEmpty then acc
  else (dictInsert acc.1 d.event (d, errors), acc.2 + errors.length)

/-- The collection phase of `check_errors` (lines 334-346): fold the rule
table into `(all_errors, total_error_count)`.  The message sections of
lines 359-382 are then emitted by iterating `all_errors` in dict
(insertion) order, one section per entry. -/
def check_errors_collect (resp : ErrorDef → Option QueryResult) :
    List (String × ErrorDef × List ErrorRow) × Nat :=
  ERROR_DEFINITIONS.foldl (collectStep resp) ([], 0)

/-- `value_str[:80] + "..."` applied when `len(value_str) > 80`
(lines 311-313 of `format_error_properties`). -/
def truncateValue (v : List Char) : List Char :=
  if v.length > 80 then v.take 80 ++ "...".toList else v

/-- `error.get(prop)` on a zipped error dict: `none` when the column is
absent, `some c` otherwise. -/
def rowGet (error : ErrorRow) (prop : String) : Option Cell :=
  match error with
  | [] => none
  | p :: rest => if p.1 == prop then some p.2 else rowGet rest prop

/-- The parts list built by `format_error_properties` (lines 304-314):
one `prop=\x60value\x60` fragment per projected property whose value is
present (column exists, not SQL NULL) and non-empty, with long values
truncated. -/
def format_error_parts (error : ErrorRow) (props_to_show : List String) :
    List (List Char) :=
  props_to_show.filterMap fun prop =>
    match rowGet error prop with
    | some (some v) =>
        if v.isEmpty then none
        else some (prop.toList ++ '=' :: '\x60' :: (truncateValue v ++ ['\x60']))
    | _ => none

/-- `format_error_properties` (lines 304-315): join the parts with
`" · "`, or `"No details"` when no part survives. -/
def format_error_properties (error : ErrorRow) (props_to_show : List String) :
    List Char :=
  let parts := format_error_parts error props_to_show
  if parts.isEmpty then "No details".toList
  else List.intercalate " · ".toList parts

end ErrorReporter

namespace Digest

/-- A JSON value, as returned by `response.json()` in
`posthog_to_slack.py`.  Numbers are modelled as exact rationals. -/
inductive JVal where
  | null : JVal
  | bool : Bool → JVal
  | num : ℚ → JVal
  | str : String → JVal
  | arr : List JVal → JVal
  | obj : List (String × JVal) → JVal

/-- First binding of a key in a JSON object (parsed JSON objects have
distinct keys). -/
def jlookup (k : String) : List (String × JVal) → Option JVal
  | [] => none
  | p :: rest => if p.1 == k then some p.2 else jlookup k rest

/-- Python `v.get(k, dflt)`: the member when `v` is an object (the default
when the key is absent), an `AttributeError` otherwise. -/
def dictGet (v : JVal) (k : String) (dflt : JVal) : Except Unit JVal :=
  match v with
  | .obj fields => .ok ((jlookup k fields).getD dflt)
  | _ => .error ()

/-- Python truthiness of a JSON value. -/
def pyTruthy : JVal → Bool
  | .null => false
  | .bool b => b
  | .num q => q != 0
  | .str s => s != ""
  | .arr xs => !xs.isEmpty
  | .obj fields => !fields.isEmpty

/-- Python `len(v)`: defined for sized values, a `TypeError` otherwise. -/
def pyLen : JVal → Except Unit Nat
  | .str s => .ok s.length
  | .arr xs => .ok xs.length
  | .obj fields => .ok fields.length
  | _ => .error ()

/-- Python `v[i]` for an integer index (supporting the `0` and `-1` used
by the script): list/string indexing with negative-from-the-end, an
exception otherwise.  Indexing a parsed JSON object with an integer is a
`KeyError` (its keys are strings). -/
def pyIndex (v : JVal) (i : Int) : Except Unit JVal :=
  match v with
  | .arr xs =>
      let j : Int := if i < 0 then (xs.length : Int) + i else i
      if h : 0 ≤ j ∧ j.toNat < xs.length then .ok (xs.get ⟨j.toNat, h.2⟩)
      else .error ()
  | .str s =>
      let cs := s.toList
      let j : Int := if i < 0 then (cs.length : Int) + i else i
      if h : 0 ≤ j ∧ j.toNat < cs.length then
        .ok (.str (String.mk [cs.get ⟨j.toNat, h.2⟩]))
      else .error ()
  | _ => .error ()

/-- Python `isinstance(v, list)`. -/
def isArr : JVal → Bool
  | .arr _ => true
  | _ => false

/-- Python `v > 0`: numbers (bools are ints) compare, anything else is a
`TypeError`. -/
def pyGtZero : JVal → Except Unit Bool
  | .num q => .ok (decide (q > 0))
  | .bool b => .ok b
  | _ => .error ()

/-- Numeric coercion used by Python arithmetic on a JSON value: numbers
and bools, a `TypeError` otherwise. -/
def pyToNum : JVal → Except Unit ℚ
  | .num q => .ok q
  | .bool b => .ok (if b then 1 else 0)
  | _ => .error ()

/-- Digits-with-thousands-separators: commas every three digits from the
right (input and output most-significant first). -/
def groupDigitsAux (l : List Char) : List Char :=
  match l with
  | a :: b :: c :: d :: rest => a :: b :: c :: ',' :: groupDigitsAux (d :: rest)
  | l => l
termination_by l.length

/-- The f-string `f"{conversion:.1f}%"` (line 83): one decimal place,
modelled as exact half-up rounding of the rational. -/
def fmtPct1 (q : ℚ) : String :=
  let t : ℤ := round (q * 10)
  let sign := if t < 0 then "-" else ""
  let a := t.natAbs
  sign ++ toString (a / 10) ++ "." ++ toString (a % 10) ++ "%"

/-- The f-string `f"{data[-1]:,.0f}"` (line 96): round to an integer and
group thousands with commas. -/
def fmtThousands (q : ℚ) : String :=
  let n : ℤ := round q
  let sign := if n < 0 then "-" else ""
  let digits := (toString n.natAbs).toList
  sign ++ String.mk ((groupDigitsAux digits.reverse).reverse)

/-- The `try` body of `extract_funnel_conversion` (lines 73-85), with each
Python operation that can raise modelled in `Except`; every fall-through
path yields `"N/A"`. -/
def funnelBody (insight_data : JVal) : Except Unit String :=
  match dictGet insight_data "result" (.arr []) with
  | .error e => .error e
  | .ok results =>
    if pyTruthy results then
      match pyLen results with
      | .error e => .error e
      | .ok n =>
        if n > 0 then
          match pyIndex results 0 with
          | .error e => .error e
          | .ok r0 =>
            let steps := if isArr r0 then r0 else results
            match pyLen steps with
            | .error e => .error e
            | .ok m =>
              if m ≥ 2 then
                match pyIndex steps 0 with
                | .error e => .error e
                | .ok s0 =>
                  match dictGet s0 "count" (.num 0) with
                  | .error e => .error e
                  | .ok first_step =>
                    match pyIndex steps (-1) with
                    | .error e => .error e
                    | .ok slast =>
                      match dictGet slast "count" (.num 0) with
                      | .error e => .error e
                      | .ok last_step =>
                        match pyGtZero first_step with
                        | .error e => .error e
                        | .ok gt =>
                          if gt then
                            match pyToNum last_step, pyToNum first_step with
                            | .ok lq, .ok fq => .ok (fmtPct1 (lq / fq * 100))
                            | _, _ => .error ()
                          else .ok "N/A"
              else .ok "N/A"
        else .ok "N/A"
    else .ok "N/A"

/-- `extract_funnel_conversion` (lines 71-86): the `try` body with
`except Exception: pass` and the final `return "N/A"`. -/
def extract_funnel_conversion (insight_data : JVal) : String :=
  match funnelBody insight_data with
  | .ok s => s
  | .error _ => "N/A"

/-- The `try` body of `extract_trend_value` (lines 89-99). -/
def trendBody (insight_data : JVal) : Except Unit String :=
  match dictGet insight_data "result" (.arr []) with
  | .error e => .error e
  | .ok results =>
    if pyTruthy results then
      match pyLen results with
      | .error e => .error e
      | .ok n =>
        if n > 0 then
          match pyIndex results 0 with
          | .error e => .error e
          | .ok r0 =>
            match dictGet r0 "data" (.arr []) with
            | .error e => .error e
            | .ok data =>
              if pyTruthy data then
                match pyIndex data (-1) with
                | .error e => .error e
                | .ok x =>
                  match pyToNum x with
                  | .error e => .error e
                  | .ok q => .ok (fmtThousands q)
              else .ok "N/A"
        else .ok "N/A"
    else .ok "N/A"

/-- `extract_trend_value` (lines 89-99): the `try` body with the
catch-all and the final `return "N/A"`. -/
def extract_trend_value (insight_data : JVal) : String :=
  match trendBody insight_data with
  | .ok s => s
  | .error _ => "N/A"

/-- `extract_metric` (lines 102-110).  Lines 104-105
(`insight_data.get("filters", {})` and `filters.get("insight", "TRENDS")`)
are OUTSIDE any `try`, so their exceptions propagate to the caller:
the result is `Except`, with `.error` meaning the call raises. -/
def extract_metric (insight_data : JVal) : Except Unit String :=
  match dictGet insight_data "filters" (.obj []) with
  | .error e => .error e
  | .ok filters =>
    match dictGet filters "insight" (.str "TRENDS") with
    | .error e => .error e
    | .ok insight_type =>
      let isFunnels := match insight_type with
        | .str s => s == "FUNNELS"
        | _ => false
      if isFunnels then .ok (extract_funnel_conversion insight_data)
      else .ok (extract_trend_value insight_data)

end Digest


/-! ## Theorems -/

namespace DailyReporter

/-- Evaluation rule for `round` on rationals. -/
theorem round_eq_of (q : ℚ) (n : ℤ) (h1 : (n : ℚ) ≤ q + 1/2)
    (h2 : q + 1/2 < n + 1) : round q = n := by
  rw [round_eq]
  exact Int.floor_eq_iff.mpr ⟨h1, h2⟩

/-- In-place update keeps the key list of the funnel dict. -/
theorem setExisting_keys (m : List (String × FunnelResult)) (k : String)
    (v : FunnelResult) : (setExisting m k v).map Prod.fst = m.map Prod.fst := by
  induction m with
  | nil => rfl
  | cons p t ih =>
      simp only [setExisting, List.map_cons] at ih ⊢
      by_cases h : p.1 == k
      · rw [if_pos h, ih]
        exact congrArg (· :: _) (eq_of_beq h).symm
      · rw [if_neg h, ih]

/-- One processing step keeps the key list of the funnel dict. -/
theorem processStep_keys (m : List (String × FunnelResult))
    (r : String × Nat × Nat) :
    (processStep m r).map Prod.fst = m.map Prod.fst := by
  unfold processStep
  split
  · exact setExisting_keys m r.1 _
  · rfl

/-- Folding result rows keeps the key list of the funnel dict. -/
theorem foldl_processStep_keys (rs : List (String × Nat × Nat)) :
    ∀ m : List (String × FunnelResult),
      (rs.foldl processStep m).map Prod.fst = m.map Prod.fst := by
  induction rs with
  | nil => intro m; rfl
  | cons r t ih =>
      intro m
      rw [List.foldl_cons, ih (processStep m r), processStep_keys]

/-- Any property of funnel-dict values that holds of every
`mkFunnelResult` and of the initial values is preserved by the fold. -/
theorem foldl_processStep_values (P : FunnelResult → Prop)
    (hmk : ∀ s c, P (mkFunnelResult s c)) (rs : List (String × Nat × Nat)) :
    ∀ m : List (String × FunnelResult), (∀ p ∈ m, P p.2) →
      ∀ p ∈ rs.foldl processStep m, P p.2 := by
  induction rs with
  | nil => intro m hm; exact hm
  | cons r t ih =>
      intro m hm
      rw [List.foldl_cons]
      refine ih (processStep m r) ?_
      intro p hp
      unfold processStep at hp
      split at hp
      · unfold setExisting at hp
        rcases List.mem_map.mp hp with ⟨q, hq, rfl⟩
        by_cases h : q.1 == r.1
        · rw [if_pos h]
          exact hmk _ _
        · rw [if_neg h]
          exact hm q hq
      · exact hm p hp

/-- The rate stored by `mkFunnelResult` follows the source formula. -/
theorem mkFunnelResult_rate (s c : Nat) :
    ((mkFunnelResult s c).started = 0 → (mkFunnelResult s c).rate = 0)
    ∧ (0 < (mkFunnelResult s c).started →
        (mkFunnelResult s c).rate =
          round1 (((mkFunnelResult s c).completed : ℚ) /
            ((mkFunnelResult s c).started : ℚ) * 100)) := by
  constructor
  · intro h
    have hs : s = 0 := h
    subst hs
    simp [mkFunnelResult, round1]
  · intro h
    have hs : 0 < s := h
    simp [mkFunnelResult, hs]

/-- **C2**: every per-platform funnel result has
`rate = round1(completed/started*100)` when `started > 0` and `rate = 0`
when `started = 0`; and no upper clamp is applied — a backend row with
`completed > started` (here `(2, 3)`) yields a rate of `150 > 100`. -/
theorem funnel_rate_formula (resultRows : List (String × Nat × Nat)) :
    (∀ p ∈ processRows resultRows,
        (p.2.started = 0 → p.2.rate = 0)
        ∧ (0 < p.2.started →
            p.2.rate = round1 ((p.2.completed : ℚ) / (p.2.started : ℚ) * 100)))
    ∧ ("iOS", mkFunnelResult 2 3) ∈ processRows [("iOS", 2, 3)]
    ∧ (mkFunnelResult 2 3).rate = 150
    ∧ (100 : ℚ) < (mkFunnelResult 2 3).rate := by
  have hrate : (mkFunnelResult 2 3).rate = 150 := by
    unfold mkFunnelResult round1
    norm_num
  refine ⟨?_, ?_, hrate, ?_⟩
  · refine foldl_processStep_values
      (fun q => (q.started = 0 → q.rate = 0)
        ∧ (0 < q.started → q.rate = round1 ((q.completed : ℚ) / (q.started : ℚ) * 100)))
      mkFunnelResult_rate resultRows funnelInit ?_
    intro p hp
    simp only [funnelInit, List.mem_cons, List.mem_singleton,
      List.not_mem_nil, or_false] at hp
    rcases hp with rfl | rfl
    · exact ⟨fun _ => rfl, fun h0 => absurd h0 (by simp [zeroResult])⟩
    · exact ⟨fun _ => rfl, fun h0 => absurd h0 (by simp [zeroResult])⟩
  · have : processRows [("iOS", 2, 3)] =
        [("iOS", mkFunnelResult 2 3), ("Android", zeroResult)] := by
      simp [processRows, processStep, funnelInit, setExisting]
    rw [this]
    exact List.mem_cons_self _ _
  · rw [hrate]
    norm_num

/-- Witness for `funnel_rate_formula`: the general formula instantiated at
the concrete dict built from the single backend row `("iOS", 2, 3)`. -/
theorem funnel_rate_formula_witness :
    (mkFunnelResult 2 3).rate =
      round1 (((mkFunnelResult 2 3).completed : ℚ) /
        ((mkFunnelResult 2 3).started : ℚ) * 100) := by
  have h := funnel_rate_formula [("iOS", 2, 3)]
  exact (h.1 ("iOS", mkFunnelResult 2 3) h.2.1).2 (by norm_num [mkFunnelResult])

/-- **C3**: the attribution reconciler computes
`other = max(0, total − (standard + deeplink))`: the exact difference
when the funnels' completed sum does not exceed the total, and `0`
(never negative) otherwise. -/
theorem other_buy_floor (total standard deeplink : ℤ) :
    other_buy total standard deeplink = max 0 (total - (standard + deeplink))
    ∧ (standard + deeplink ≤ total →
        other_buy total standard deeplink = total - (standard + deeplink))
    ∧ (total < standard + deeplink → other_buy total standard deeplink = 0) := by
  refine ⟨?_, ?_, ?_⟩ <;> simp only [other_buy] <;> split <;> omega

/-- Witness for `other_buy_floor`: both branches at concrete inputs. -/
theorem other_buy_floor_witness :
    other_buy 10 3 4 = 3 ∧ other_buy 1 3 4 = 0 := by
  constructor
  · have h := (other_buy_floor 10 3 4).2.1 (by norm_num)
    rw [h]
    norm_num
  · exact (other_buy_floor 1 3 4).2.2 (by norm_num)

/-- **C8**: the funnel calculator's output always has exactly the keys
`iOS` and `Android`, in that order (platforms without data included, no
other key ever present), and the empty row set yields the all-zero dict
without error. -/
theorem funnel_fixed_shape (start_event end_event : String)
    (date_from date_to : Nat) (rows : List EventRow)
    (resultRows : List (String × Nat × Nat)) :
    (get_real_funnel_conversion start_event end_event date_from date_to
        rows).map Prod.fst = ["iOS", "Android"]
    ∧ (processRows resultRows).map Prod.fst = ["iOS", "Android"]
    ∧ get_real_funnel_conversion start_event end_event date_from date_to []
        = [("iOS", zeroResult), ("Android", zeroResult)] := by
  refine ⟨?_, ?_, ?_⟩
  · exact foldl_processStep_keys _ funnelInit
  · exact foldl_processStep_keys _ funnelInit
  · simp [get_real_funnel_conversion, queryResults, innerGroups, filterRows,
      actorIds, processRows, funnelInit]

end DailyReporter

namespace DailyReporter

/-- For a positive previous value the sign of `delta_pct` matches the
comparison of the two inputs. -/
theorem delta_pct_sign (current previous : ℤ) (hp : 0 < previous) :
    (0 < delta_pct current previous ↔ previous < current)
    ∧ (delta_pct current previous < 0 ↔ current < previous)
    ∧ (delta_pct current previous = 0 ↔ current = previous) := by
  have hpQ : (0 : ℚ) < (previous : ℚ) := by exact_mod_cast hp
  have hkey : delta_pct current previous =
      ((current : ℚ) - (previous : ℚ)) * 100 / (previous : ℚ) := by
    unfold delta_pct
    ring
  refine ⟨?_, ?_, ?_⟩
  · rw [hkey, lt_div_iff₀ hpQ, zero_mul]
    constructor
    · intro h
      have : (previous : ℚ) < (current : ℚ) := by nlinarith
      exact_mod_cast this
    · intro h
      have : (previous : ℚ) < (current : ℚ) := by exact_mod_cast h
      nlinarith
  · rw [hkey, div_lt_iff₀ hpQ, zero_mul]
    constructor
    · intro h
      have : (current : ℚ) < (previous : ℚ) := by nlinarith
      exact_mod_cast this
    · intro h
      have : (current : ℚ) < (previous : ℚ) := by exact_mod_cast h
      nlinarith
  · rw [hkey, div_eq_zero_iff]
    constructor
    · intro h
      rcases h with h | h
      · have : (current : ℚ) = (previous : ℚ) := by nlinarith
        exact_mod_cast this
      · exact absurd h (ne_of_gt hpQ)
    · intro h
      left
      have : (current : ℚ) = (previous : ℚ) := by exact_mod_cast h
      rw [this]
      ring

/-- **C4**: the delta comparator of `fmt_change`: `previous = 0,
current = 0` gives the no-data marker, `previous = 0, current > 0` gives
the New marker, and otherwise the trend marker is Up/Down/Flat exactly
according to the sign of `delta_pct = (current - previous)/previous*100`. -/
theorem fmt_change_classification (current previous : ℤ)
    (hc : 0 ≤ current) (hp : 0 ≤ previous) :
    (previous = 0 → current = 0 → fmt_change_marker current previous = "—")
    ∧ (previous = 0 → 0 < current → fmt_change_marker current previous = "🆕")
    ∧ (0 < previous →
        delta_pct current previous =
          ((current : ℚ) - (previous : ℚ)) / (previous : ℚ) * 100
        ∧ (fmt_change_marker current previous = "📈" ↔
            0 < delta_pct current previous)
        ∧ (fmt_change_marker current previous = "📉" ↔
            delta_pct current previous < 0)
        ∧ (fmt_change_marker current previous = "➡️" ↔
            delta_pct current previous = 0)
        ∧ (0 < delta_pct current previous ↔ previous < current)
        ∧ (delta_pct current previous < 0 ↔ current < previous)
        ∧ (delta_pct current previous = 0 ↔ current = previous)) := by
  refine ⟨?_, ?_, ?_⟩
  · intro h1 h2
    subst h1; subst h2
    rfl
  · intro h1 h2
    subst h1
    unfold fmt_change_marker
    rw [if_pos rfl, if_pos (by exact_mod_cast h2)]
  · intro hpos
    have hsign := delta_pct_sign current previous hpos
    have hm : fmt_change_marker current previous =
        (if 0 < delta_pct current previous then "📈"
         else if delta_pct current previous < 0 then "📉" else "➡️") := by
      unfold fmt_change_marker
      rw [if_neg (by omega)]
    refine ⟨by unfold delta_pct; ring, ?_, ?_, ?_, hsign⟩
    · rcases lt_trichotomy (delta_pct current previous) 0 with h | h | h
      · rw [hm, if_neg (by linarith), if_pos h]
        constructor
        · intro hs
          exact absurd hs (by decide)
        · intro h0
          linarith
      · rw [hm, if_neg (by linarith), if_neg (by linarith)]
        constructor
        · intro hs
          exact absurd hs (by decide)
        · intro h0
          linarith
      · rw [hm, if_pos h]
        exact ⟨fun _ => h, fun _ => rfl⟩
    · rcases lt_trichotomy (delta_pct current previous) 0 with h | h | h
      · rw [hm, if_neg (by linarith), if_pos h]
        exact ⟨fun _ => h, fun _ => rfl⟩
      · rw [hm, if_neg (by linarith), if_neg (by linarith)]
        constructor
        · intro hs
          exact absurd hs (by decide)
        · intro h0
          linarith
      · rw [hm, if_pos h]
        constructor
        · intro hs
          exact absurd hs (by decide)
        · intro h0
          linarith
    · rcases lt_trichotomy (delta_pct current previous) 0 with h | h | h
      · rw [hm, if_neg (by linarith), if_pos h]
        constructor
        · intro hs
          exact absurd hs (by decide)
        · intro h0
          linarith
      · rw [hm, if_neg (by linarith), if_neg (by linarith)]
        exact ⟨fun _ => h, fun _ => rfl⟩
      · rw [hm, if_pos h]
        constructor
        · intro hs
          exact absurd hs (by decide)
        · intro h0
          linarith

/-- Witness for `fmt_change_classification`: the four example inputs of
the specification. -/
theorem fmt_change_classification_witness :
    fmt_change_marker 0 0 = "—"
    ∧ fmt_change_marker 5 0 = "🆕"
    ∧ fmt_change_marker 15 10 = "📈"
    ∧ delta_pct 15 10 = 50
    ∧ fmt_change_marker 5 10 = "📉"
    ∧ delta_pct 5 10 = -50 := by
  have h50 : delta_pct 15 10 = 50 := by
    unfold delta_pct
    norm_num
  have hm50 : delta_pct 5 10 = -50 := by
    unfold delta_pct
    norm_num
  refine ⟨?_, ?_, ?_, h50, ?_, hm50⟩
  · exact (fmt_change_classification 0 0 le_rfl le_rfl).1 rfl rfl
  · exact (fmt_change_classification 5 0 (by norm_num) le_rfl).2.1 rfl (by norm_num)
  · exact ((fmt_change_classification 15 10 (by norm_num) (by norm_num)).2.2
      (by norm_num)).2.1.mpr (by rw [h50]; norm_num)
  · exact ((fmt_change_classification 5 10 (by norm_num) (by norm_num)).2.2
      (by norm_num)).2.2.1.mpr (by rw [hm50]; norm_num)

end DailyReporter

namespace DailyReporter

/-- Unfolding rule for the per-actor group of the inner subquery. -/
theorem actorGroup_eq_some (start_event end_event : String)
    (fr : List EventRow) (a : String) (g : ActorGroup) :
    actorGroup start_event end_event fr a = some g ↔
      ((fr.filter (·.distinct_id == a)).any (·.event == start_event) = true
        ∧ g = ⟨a, argMinOs (fr.filter (·.distinct_id == a)),
            (fr.filter (·.distinct_id == a)).any (·.event == end_event)⟩) := by
  simp only [actorGroup]
  split
  next h =>
    constructor
    · intro hg
      exact ⟨h, (Option.some.inj hg).symm⟩
    · rintro ⟨-, h2⟩
      rw [h2]
  next h =>
    constructor
    · intro hg
      exact Option.noConfusion hg
    · rintro ⟨h1, -⟩
      exact absurd h1 h

/-- **C1**: an actor counts toward `started` (appears as a group of the
inner query) exactly when they have at least one start-event row in the
filtered window, and toward `completed` exactly when they additionally
have at least one end-event row — with no constraint on the temporal
order of the two; on the specification's scenario (start rows from
A, B, C and end rows from B, C, D, all iOS) the result is
`started = 3`, `completed = 2`, `rate = 66.7`. -/
theorem funnel_counts_characterization (start_event end_event : String)
    (date_from date_to : Nat) (rows : List EventRow) (a : String) :
    ((innerGroups start_event end_event date_from date_to rows).any
        (fun g => g.distinct_id == a) = true
      ↔ ∃ r ∈ filterRows start_event end_event date_from date_to rows,
          r.distinct_id = a ∧ r.event = start_event)
    ∧ ((innerGroups start_event end_event date_from date_to rows).any
        (fun g => g.distinct_id == a && g.completed) = true
      ↔ (∃ r ∈ filterRows start_event end_event date_from date_to rows,
            r.distinct_id = a ∧ r.event = start_event)
        ∧ (∃ r ∈ filterRows start_event end_event date_from date_to rows,
            r.distinct_id = a ∧ r.event = end_event))
    ∧ get_real_funnel_conversion "fstart" "fend" 0 10 scenarioRows
        = [("iOS", ⟨3, 2, 667/10⟩), ("Android", ⟨0, 0, 0⟩)] := by
  refine ⟨?_, ?_, ?_⟩
  · constructor
    · intro h
      rcases List.any_eq_true.mp h with ⟨g, hg, hga⟩
      simp only [innerGroups] at hg
      rcases List.mem_filterMap.mp hg with ⟨b, hb, hfb⟩
      rcases (actorGroup_eq_some _ _ _ _ _).mp hfb with ⟨hstart, rfl⟩
      have hba : b = a := eq_of_beq hga
      subst hba
      rcases List.any_eq_true.mp hstart with ⟨r, hr, hev⟩
      have hrmem := List.mem_filter.mp hr
      exact ⟨r, hrmem.1, eq_of_beq hrmem.2, eq_of_beq hev⟩
    · rintro ⟨r, hr, hda, hev⟩
      have hmem_actor : a ∈ actorIds
          (filterRows start_event end_event date_from date_to rows) :=
        List.mem_dedup.mpr (List.mem_map.mpr ⟨r, hr, hda⟩)
      have hstart : ((filterRows start_event end_event date_from date_to
            rows).filter (·.distinct_id == a)).any
            (·.event == start_event) = true :=
        List.any_eq_true.mpr
          ⟨r, List.mem_filter.mpr ⟨hr, by simp [hda]⟩, by simp [hev]⟩
      apply List.any_eq_true.mpr
      refine ⟨⟨a,
        argMinOs ((filterRows start_event end_event date_from date_to
          rows).filter (·.distinct_id == a)),
        ((filterRows start_event end_event date_from date_to
          rows).filter (·.distinct_id == a)).any (·.event == end_event)⟩,
        ?_, by simp⟩
      simp only [innerGroups]
      exact List.mem_filterMap.mpr
        ⟨a, hmem_actor, (actorGroup_eq_some _ _ _ _ _).mpr ⟨hstart, rfl⟩⟩
  · constructor
    · intro h
      rcases List.any_eq_true.mp h with ⟨g, hg, hga⟩
      simp only [innerGroups] at hg
      rcases List.mem_filterMap.mp hg with ⟨b, hb, hfb⟩
      rcases (actorGroup_eq_some _ _ _ _ _).mp hfb with ⟨hstart, rfl⟩
      simp only [Bool.and_eq_true] at hga
      obtain ⟨hba, hcomp⟩ := hga
      have hba2 : b = a := eq_of_beq hba
      subst hba2
      constructor
      · rcases List.any_eq_true.mp hstart with ⟨r, hr, hev⟩
        have hrmem := List.mem_filter.mp hr
        exact ⟨r, hrmem.1, eq_of_beq hrmem.2, eq_of_beq hev⟩
      · rcases List.any_eq_true.mp hcomp with ⟨r, hr, hev⟩
        have hrmem := List.mem_filter.mp hr
        exact ⟨r, hrmem.1, eq_of_beq hrmem.2, eq_of_beq hev⟩
    · rintro ⟨⟨r, hr, hda, hev⟩, ⟨r2, hr2, hda2, hev2⟩⟩
      have hmem_actor : a ∈ actorIds
          (filterRows start_event end_event date_from date_to rows) :=
        List.mem_dedup.mpr (List.mem_map.mpr ⟨r, hr, hda⟩)
      have hstart : ((filterRows start_event end_event date_from date_to
            rows).filter (·.distinct_id == a)).any
            (·.event == start_event) = true :=
        List.any_eq_true.mpr
          ⟨r, List.mem_filter.mpr ⟨hr, by simp [hda]⟩, by simp [hev]⟩
      have hend : ((filterRows start_event end_event date_from date_to
            rows).filter (·.distinct_id == a)).any
            (·.event == end_event) = true :=
        List.any_eq_true.mpr
          ⟨r2, List.mem_filter.mpr ⟨hr2, by simp [hda2]⟩, by simp [hev2]⟩
      apply List.any_eq_true.mpr
      refine ⟨⟨a,
        argMinOs ((filterRows start_event end_event date_from date_to
          rows).filter (·.distinct_id == a)),
        ((filterRows start_event end_event date_from date_to
          rows).filter (·.distinct_id == a)).any (·.event == end_event)⟩,
        ?_, by simp [hend]⟩
      simp only [innerGroups]
      exact List.mem_filterMap.mpr
        ⟨a, hmem_actor, (actorGroup_eq_some _ _ _ _ _).mpr ⟨hstart, rfl⟩⟩
  · have hq : queryResults "fstart" "fend" 0 10 scenarioRows =
        [("iOS", 3, 2)] := by decide
    have hrate : round1 (((2 : ℕ) : ℚ) / ((3 : ℕ) : ℚ) * 100) = 667 / 10 := by
      unfold round1
      rw [show (((2 : ℕ) : ℚ) / ((3 : ℕ) : ℚ) * 100 * 10) = 2000 / 3 by
          norm_num,
        round_eq_of (2000 / 3) 667 (by norm_num) (by norm_num)]
      norm_num
    have hmk : mkFunnelResult 3 2 = ⟨3, 2, 667 / 10⟩ := by
      unfold mkFunnelResult
      rw [if_pos (by norm_num : 3 > 0), hrate]
    have hp : processRows [("iOS", 3, 2)] =
        [("iOS", mkFunnelResult 3 2), ("Android", zeroResult)] := by
      simp [processRows, processStep, funnelInit, setExisting]
    show processRows (queryResults "fstart" "fend" 0 10 scenarioRows) = _
    rw [hq, hp, hmk]
    rfl

/-- Witness for `funnel_counts_characterization`: in the scenario, actor A
counts toward `started` and actor B toward `completed` (B has both a
start row and a later end row). -/
theorem funnel_counts_characterization_witness :
    (innerGroups "fstart" "fend" 0 10 scenarioRows).any
        (fun g => g.distinct_id == "A") = true
    ∧ (innerGroups "fstart" "fend" 0 10 scenarioRows).any
        (fun g => g.distinct_id == "B" && g.completed) = true := by
  constructor
  · exact (funnel_counts_characterization "fstart" "fend" 0 10 scenarioRows
      "A").1.mpr ⟨⟨"fstart", "A", "iOS", 1⟩, by decide, rfl, rfl⟩
  · exact (funnel_counts_characterization "fstart" "fend" 0 10 scenarioRows
      "B").2.1.mpr ⟨⟨⟨"fstart", "B", "iOS", 2⟩, by decide, rfl, rfl⟩,
        ⟨⟨"fend", "B", "iOS", 4⟩, by decide, rfl, rfl⟩⟩

end DailyReporter

namespace ErrorReporter

/-- Inserting a fresh key into a Python dict appends it. -/
theorem dictInsert_of_not_mem (m : List (String × ErrorDef × List ErrorRow))
    (k : String) (v : ErrorDef × List ErrorRow)
    (h : m.any (·.1 == k) = false) : dictInsert m k v = m ++ [(k, v)] := by
  unfold dictInsert
  rw [if_neg (by simp [h])]

/-- Closed form of the collection fold of `check_errors` on a rule list
with pairwise-distinct event names, none of which is already in the
accumulator: sections are appended in rule order, one per rule with a
non-empty error list, and the total adds every rule's error count. -/
theorem collect_foldl (resp : ErrorDef → Option QueryResult) :
    ∀ (defs : List ErrorDef) (acc : List (String × ErrorDef × List ErrorRow))
      (tot : Nat),
      (defs.map (·.event)).Nodup →
      (∀ d ∈ defs, acc.any (·.1 == d.event) = false) →
      defs.foldl (collectStep resp) (acc, tot) =
        (acc ++ (defs.filter
            (fun d => !(get_errors_for_event resp d).isEmpty)).map
            (fun d => (d.event, d, get_errors_for_event resp d)),
          tot + (defs.map
            (fun d => (get_errors_for_event resp d).length)).sum) := by
  intro defs
  induction defs with
  | nil => intro acc tot _ _; simp
  | cons d t ih =>
      intro acc tot hnodup hacc
      rw [List.map_cons] at hnodup
      have hnd := List.nodup_cons.mp hnodup
      rw [List.foldl_cons]
      by_cases he : (get_errors_for_event resp d).isEmpty
      · have hstep : collectStep resp (acc, tot) d = (acc, tot) := by
          simp only [collectStep]
          rw [if_pos he]
        rw [hstep,
          ih acc tot hnd.2 (fun d2 hd2 => hacc d2 (List.mem_cons_of_mem _ hd2))]
        have hlen : (get_errors_for_event resp d).length = 0 := by
          rw [List.isEmpty_iff.mp he]
          rfl
        simp [he, hlen]
      · have hstep : collectStep resp (acc, tot) d =
            (acc ++ [(d.event, d, get_errors_for_event resp d)],
              tot + (get_errors_for_event resp d).length) := by
          simp only [collectStep]
          rw [if_neg he]
          rw [dictInsert_of_not_mem _ _ _ (hacc d (List.mem_cons_self _ _))]
        rw [hstep, ih (acc ++ [(d.event, d, get_errors_for_event resp d)])
            (tot + (get_errors_for_event resp d).length) hnd.2 ?_]
        · simp [he, List.append_assoc, Nat.add_assoc]
        · intro d2 hd2
          have h1 := hacc d2 (List.mem_cons_of_mem _ hd2)
          have h2 : (d.event == d2.event) = false := by
            apply beq_eq_false_iff_ne.mpr
            intro hcontra
            exact hnd.1 (hcontra ▸ List.mem_map.mpr ⟨d2, hd2, rfl⟩)
          simp [List.any_append, h1, h2]

/-- The 19 event names of `ERROR_DEFINITIONS` are pairwise distinct. -/
theorem error_definitions_events_nodup :
    (ERROR_DEFINITIONS.map (·.event)).Nodup := by decide

/-- **C9**: the emitted error sections are exactly the rules with a
non-empty error list, in rule-table order; a rule with zero matching
rows contributes no section. -/
theorem error_sections_order (resp : ErrorDef → Option QueryResult) :
    (check_errors_collect resp).1 =
      (ERROR_DEFINITIONS.filter
        (fun d => !(get_errors_for_event resp d).isEmpty)).map
        (fun d => (d.event, d, get_errors_for_event resp d))
    ∧ ((check_errors_collect resp).1).map (·.1) =
        (ERROR_DEFINITIONS.filter
          (fun d => !(get_errors_for_event resp d).isEmpty)).map (·.event)
    ∧ (∀ d ∈ ERROR_DEFINITIONS, get_errors_for_event resp d = [] →
        ∀ s ∈ (check_errors_collect resp).1, s.1 ≠ d.event) := by
  have hfold := collect_foldl resp ERROR_DEFINITIONS [] 0
    error_definitions_events_nodup (fun _ _ => rfl)
  have h1 : (check_errors_collect resp).1 =
      (ERROR_DEFINITIONS.filter
        (fun d => !(get_errors_for_event resp d).isEmpty)).map
        (fun d => (d.event, d, get_errors_for_event resp d)) := by
    unfold check_errors_collect
    rw [hfold]
    simp
  refine ⟨h1, ?_, ?_⟩
  · rw [h1, List.map_map]
    rfl
  · intro d hd hde s hs heq
    rw [h1] at hs
    rcases List.mem_map.mp hs with ⟨d2, hd2, rfl⟩
    have hd2f := List.mem_filter.mp hd2
    have hdd : d2 = d :=
      List.inj_on_of_nodup_map error_definitions_events_nodup hd2f.1 hd heq
    rw [hdd] at hd2f
    rw [hde] at hd2f
    simp at hd2f

/-- **C6**: the backend `LIMIT` caps what each rule surfaces — at most
`limit` rows in general, at most `MAX_ERRORS_PER_TYPE` in production,
exactly 2 of 3 matching rows under a cap of 2 — and
`total_error_count` is exactly the sum of the per-rule error-list
lengths the engine received, never more. -/
theorem error_cap_and_total (resp : ErrorDef → Option QueryResult)
    (limit : Nat) (matching : List (List Cell)) (cols : List String)
    (r1 r2 r3 : List Cell) :
    (limitResults limit matching).length ≤ limit
    ∧ (rowsToErrors (some ⟨cols, limitResults MAX_ERRORS_PER_TYPE
        matching⟩)).length ≤ MAX_ERRORS_PER_TYPE
    ∧ (limitResults 2 [r1, r2, r3]).length = 2
    ∧ (check_errors_collect resp).2 =
        (ERROR_DEFINITIONS.map
          (fun d => (get_errors_for_event resp d).length)).sum := by
  refine ⟨?_, ?_, ?_, ?_⟩
  · unfold limitResults
    exact List.length_take_le _ _
  · rw [show rowsToErrors (some ⟨cols, limitResults MAX_ERRORS_PER_TYPE
        matching⟩) =
        (if (limitResults MAX_ERRORS_PER_TYPE matching).isEmpty then []
          else (limitResults MAX_ERRORS_PER_TYPE matching).map
            (fun row => cols.zip row)) from rfl]
    split
    · simp
    · rw [List.length_map]
      unfold limitResults
      exact List.length_take_le _ _
  · rfl
  · have hfold := collect_foldl resp ERROR_DEFINITIONS [] 0
      error_definitions_events_nodup (fun _ _ => rfl)
    unfold check_errors_collect
    rw [hfold]
    simp

/-- **C5** (code bug): a failed row fetch (`query_posthog` returning
`None` on a non-2xx response) is indistinguishable downstream from a
fetch that succeeded with zero matching rows — both become `[]`, so the
whole run degenerates to the same no-section, zero-total state instead
of a degraded "data unavailable" section. -/
theorem fetch_failure_conflated :
    rowsToErrors none = []
    ∧ (∀ cols : List String, rowsToErrors (some ⟨cols, []⟩) = [])
    ∧ check_errors_collect (fun _ => none) =
        check_errors_collect
          (fun _ => some ⟨["os", "session_id", "timestamp"], []⟩)
    ∧ check_errors_collect (fun _ => none) = ([], 0) := by
  refine ⟨rfl, fun cols => rfl, ?_, ?_⟩
  · rfl
  · rfl

end ErrorReporter

namespace ErrorReporter

/-- **C7**: `format_error_properties` includes exactly the projected
properties whose value is present (column there, not SQL NULL) and
non-empty, in projection order; any value longer than 80 characters is
cut to its first 80 characters plus the three-dot ellipsis (total 83),
shorter values pass unchanged; and an empty parts list renders as
`No details`. -/
theorem format_error_projection (error : ErrorRow) (props : List String)
    (v : List Char) :
    format_error_parts error props =
      (props.filter (fun prop =>
        match rowGet error prop with
        | some (some w) => !w.isEmpty
        | _ => false)).map (fun prop =>
          prop.toList ++ '=' :: '\x60' ::
            (truncateValue (((rowGet error prop).getD (some [])).getD [])
              ++ ['\x60']))
    ∧ (80 < v.length →
        truncateValue v = v.take 80 ++ "...".toList
        ∧ (truncateValue v).length = 83)
    ∧ (v.length ≤ 80 → truncateValue v = v)
    ∧ (format_error_parts error props = [] →
        format_error_properties error props = "No details".toList) := by
  refine ⟨?_, ?_, ?_, ?_⟩
  · induction props with
    | nil => rfl
    | cons p t ih =>
        simp only [format_error_parts] at ih ⊢
        rw [List.filterMap_cons, List.filter_cons]
        cases hrow : rowGet error p with
        | none => simpa [hrow] using ih
        | some c =>
            cases c with
            | none => simpa [hrow] using ih
            | some w =>
                by_cases hw : w.isEmpty
                · simpa [hrow, hw] using ih
                · simp [hrow, hw]
                  simpa using ih
  · intro h
    constructor
    · unfold truncateValue
      rw [if_pos h]
    · unfold truncateValue
      rw [if_pos h, List.length_append, List.length_take,
        Nat.min_eq_left (Nat.le_of_lt h)]
      rfl
  · intro h
    unfold truncateValue
    rw [if_neg (by omega)]
  · intro h
    unfold format_error_properties
    rw [h]
    rfl

/-- Witness for `format_error_projection`: a 100-character value is cut to
83 characters, and on a concrete row only the present, non-empty `status`
survives the projection. -/
theorem format_error_projection_witness :
    (truncateValue (List.replicate 100 'x')).length = 83
    ∧ format_error_parts
        [("status", some "error".toList), ("error", some []),
          ("provider", none)]
        ["status", "error", "provider", "reason"] =
      [("status".toList ++ '=' :: '\x60' :: ("error".toList ++ ['\x60']))] := by
  constructor
  · exact ((format_error_projection [] [] (List.replicate 100 'x')).2.1
      (by simp)).2
  · have h := (format_error_projection
      [("status", some "error".toList), ("error", some []), ("provider", none)]
      ["status", "error", "provider", "reason"] []).1
    rw [h]
    decide

end ErrorReporter

namespace Digest

/-- **C10** (counterexample): `extract_metric` is not total — lines
104-105 run outside the `try` blocks, so a payload whose `filters` member
is not an object (here the string `"oops"`) makes
`filters.get("insight", "TRENDS")` raise `AttributeError`, which
propagates to the caller instead of returning `"N/A"`. -/
theorem extract_metric_raises_on_nonobject_filters :
    extract_metric (.obj [("filters", .str "oops")]) = .error () := rfl

/-- Unfolding rule for `extract_metric` on an object payload: everything
hinges on the shape of its `filters` member. -/
theorem extract_metric_obj (fields : List (String × JVal)) :
    extract_metric (.obj fields) =
      match (jlookup "filters" fields).getD (.obj []) with
      | .obj gs =>
          if (match (jlookup "insight" gs).getD (.str "TRENDS") with
              | JVal.str str => str == "FUNNELS"
              | _ => false) then .ok (extract_funnel_conversion (.obj fields))
          else .ok (extract_trend_value (.obj fields))
      | _ => .error () := by
  unfold extract_metric
  rw [show dictGet (.obj fields) "filters" (.obj []) =
      .ok ((jlookup "filters" fields).getD (.obj [])) from rfl]
  cases hv : (jlookup "filters" fields).getD (.obj []) <;> rfl

/-- **C10** (amended): when the payload is an object whose `filters`
member, if present, is itself an object, `extract_metric` returns a
string and never raises; the inner extractors swallow every exception
and return `"N/A"` for a funnel with fewer than two steps, for a first
step whose count is 0 (so the division is never performed on zero), for
a trends result with no data points, and for unexpected payload
shapes. -/
theorem extract_metric_total_on_wellformed :
    (∀ fields : List (String × JVal),
      (∀ v, jlookup "filters" fields = some v → ∃ gs, v = JVal.obj gs) →
      ∃ s : String, extract_metric (.obj fields) = .ok s)
    ∧ (∀ steps : List JVal, steps.length < 2 →
        extract_funnel_conversion (.obj [("result", .arr [.arr steps])]) = "N/A")
    ∧ (∀ q : ℚ, extract_funnel_conversion (.obj [("result", .arr [.arr
        [.obj [("count", .num 0)], .obj [("count", .num q)]]])]) = "N/A")
    ∧ extract_trend_value (.obj [("result",
        .arr [.obj [("data", .arr [])]])]) = "N/A"
    ∧ extract_trend_value (.obj [("result", .arr [])]) = "N/A"
    ∧ (∀ s : String, extract_funnel_conversion (.str s) = "N/A"
        ∧ extract_trend_value (.str s) = "N/A") := by
  refine ⟨?_, ?_, fun q => rfl, rfl, rfl, fun s => ⟨rfl, rfl⟩⟩
  · intro fields hf
    rw [extract_metric_obj]
    cases hl : jlookup "filters" fields with
    | none => exact ⟨_, rfl⟩
    | some v =>
        obtain ⟨gs, rfl⟩ := hf v hl
        show ∃ s : String, (if (match (jlookup "insight" gs).getD
            (.str "TRENDS") with
            | JVal.str str => str == "FUNNELS"
            | _ => false) = true then
            Except.ok (extract_funnel_conversion (.obj fields))
          else Except.ok (extract_trend_value (.obj fields))) = Except.ok s
        split
        · exact ⟨_, rfl⟩
        · exact ⟨_, rfl⟩
  · intro steps hlt
    cases steps with
    | nil => rfl
    | cons a t =>
        cases t with
        | nil => rfl
        | cons b t2 =>
            simp only [List.length_cons] at hlt
            omega

/-- Witness for `extract_metric_total_on_wellformed`: the empty payload
object returns a string, and an empty funnel step list yields `"N/A"`. -/
theorem extract_metric_total_on_wellformed_witness :
    (∃ s : String, extract_metric (.obj []) = .ok s)
    ∧ extract_funnel_conversion (.obj [("result", .arr [.arr []])]) = "N/A" := by
  constructor
  · exact extract_metric_total_on_wellformed.1 []
      (fun v hv => by simp [jlookup] at hv)
  · exact extract_metric_total_on_wellformed.2.1 [] (by norm_num)

end Digest
